import Mathlib

/-!
Verification of the generic compartmental-model core of `open-sir`
(`opensir/models/model.py`), as a shallow embedding in Lean 4.

Real-valued quantities are embedded as rationals (ℚ).  The Python code is
dynamically typed, so parameter vectors handed to `set_params` are embedded as
a dynamic value type `PyVal`; operations that can raise a Python exception
return `Except PyErr` values, and methods that mutate the model instance are
embedded as functions from the state to (raised exception?, resulting state).
The external numerical collaborators (scipy's `odeint` integrator and
`curve_fit` optimizer) are abstracted: the integrator as any routine producing
one state row per requested time point, the optimizer as an arbitrary sequence
of trial parameter values followed by an optional converged result.
-/

namespace OpenSir

/-- A dynamic (Python-style) value: a number, a string, or a list. -/
inductive PyVal where
  | num (q : ℚ)
  | str (s : String)
  | list (elems : List PyVal)

/-- Exceptions that the embedded code can raise.  `invalidParameter` and
`invalidNumberOfParameters` embed the two exception classes declared on
`Model`; the others embed built-in Python exceptions. -/
inductive PyErr where
  | invalidParameter
  | invalidNumberOfParameters
  | typeError
  | assertionError
  | fitError
  deriving DecidableEq

/-- Python iteration `for x in v`: lists yield their elements, strings yield
their one-character substrings, numbers are not iterable (TypeError). -/
def pyIter : PyVal → Except PyErr (List PyVal)
  | .list xs => .ok xs
  | .str s => .ok (s.data.map (fun c => .str (String.mk [c])))
  | .num _ => .error .typeError

/-- Python comparison `v > 0`: defined for numbers, a TypeError for strings
and lists compared against a number. -/
def pyGtZero : PyVal → Except PyErr Bool
  | .num q => .ok (decide (0 < q))
  | .str _ => .error .typeError
  | .list _ => .error .typeError

/-- Python `len(v)`: defined for lists and strings, a TypeError for numbers. -/
def pyLen : PyVal → Except PyErr ℕ
  | .list xs => .ok xs.length
  | .str s => .ok s.length
  | .num _ => .error .typeError

/-- The body of the `for param in p: assert param > 0` loop over the already
obtained element sequence: returns the first exception raised, if any
(a TypeError from the comparison or an AssertionError from the assert). -/
def assertAllPositive : List PyVal → Option PyErr
  | [] => none
  | x :: xs =>
    match pyGtZero x with
    | .error e => some e
    | .ok true => assertAllPositive xs
    | .ok false => some .assertionError

/-- The numeric content of a `PyVal`.  On the success path of `set_params`
the argument is necessarily a list whose elements are all numbers, so this
extraction is exactly the stored sequence. -/
def pyNums : PyVal → List ℚ
  | .list xs => xs.filterMap (fun x => match x with | .num q => some q | _ => none)
  | .str _ => []
  | .num q => [q]

/-- The mutable state of a `Model` instance.  `__init__` sets every field to
`None`, embedded as `none`. -/
structure ModelState where
  sol : Option (List (List ℚ)) := none
  p : Option (List ℚ) := none
  pop : Option ℚ := none
  w0 : Option (List ℚ) := none
  pcov : Option (List (List ℚ)) := none
  fit_input : Option ℕ := none
  deriving DecidableEq

/-- A freshly constructed model instance. -/
def ModelState.init : ModelState := {}

/-- The class attribute `Model.NUM_PARAMS` of the base class. -/
def NUM_PARAMS : ℕ := 4

/-- The class attribute `Model.NUM_IC` of the base class. -/
def NUM_IC : ℕ := 4

/-- `Model.set_params(self, p, initial_conds)`.  `num_params`/`num_ic` are the
class attributes `NUM_PARAMS`/`NUM_IC` of the concrete model variant (4 for
the base class).  The parameter argument `p` is a dynamic value; the initial
conditions are embedded as a numeric vector (a numpy array in practice, so
elementwise division by the population is defined).  Returns the raised
exception (if any) together with the state of the instance afterwards:
the positivity loop is wrapped in a bare `try
... except` that re-raises `InvalidParameterError`, then the two length checks
run, and only then are `self.p`, `self.pop` and `self.w0` assigned. -/
def set_params (num_params num_ic : ℕ) (m : ModelState) (p : PyVal)
    (initial_conds : List ℚ) : Option PyErr × ModelState :=
  let tryExc : Option PyErr :=
    match pyIter p with
    | .error e => some e
    | .ok elems => assertAllPositive elems
  match tryExc with
  | some _ => (some .invalidParameter, m)
  | none =>
    match pyLen p with
    | .error e => (some e, m)
    | .ok lp =>
      if lp ≠ num_params ∨ initial_conds.length ≠ num_ic then
        (some .invalidNumberOfParameters, m)
      else
        let popSum := initial_conds.sum
        (none, { m with
          p := some (pyNums p),
          pop := some popSum,
          w0 := some (initial_conds.map (fun x => x / popSum)) })

/-- The `r0` property: `self.p[0] / self.p[1]`, `none` when the accesses
would raise (parameters unset or fewer than two of them). -/
def r0 (m : ModelState) : Option ℚ := do
  let ps ← m.p
  let a ← ps[0]?
  let b ← ps[1]?
  pure (a / b)

/-- `np.linspace(0, tf_days, numpoints)` over ℚ: `num` evenly spaced values
from `a` to `b`, both endpoints included when `num ≥ 2`.  For `num = 1` numpy
returns `[a]`, which the formula also yields (the `0 / 0 = 0` convention). -/
def linspace (a b : ℚ) (num : ℕ) : List ℚ :=
  (List.range num).map (fun (i : ℕ) => a + (b - a) * (i : ℚ) / ((num : ℚ) - 1))

/-- The signature of a concrete model variant's derivative function
`func(w, t, p)`, the external collaborator integrated by `odeint`. -/
def DerivFun : Type := List ℚ → ℚ → List ℚ → List ℚ

/-- The external numerical integrator (`scipy.integrate.odeint`), abstracted:
any routine `run func w0 t p` producing exactly one state row per requested
time point. -/
structure OdeSolver where
  run : DerivFun → List ℚ → List ℚ → List ℚ → List (List ℚ)
  run_length : ∀ f w0 t p, (run f w0 t p).length = t.length

/-- `call_solver(func, p, w0, t)`: run the integrator, then
`np.insert(sol, 0, t, axis=1)` prepends the time value to each row. -/
def call_solver (S : OdeSolver) (func : DerivFun) (p w0 t : List ℚ) :
    List (List ℚ) :=
  List.zipWith (fun ti row => ti :: row) t (S.run func w0 t p)

/-- `Model.solve(self, tf_days, numpoints)`: build the time span, integrate,
rescale every non-time column by the population (`sol[:, 1:] *= self.pop`),
store the result as `self.sol` and return `self`.  `none` when `self.p`,
`self.w0` or `self.pop` is unset (the Python code would raise inside the
integrator / the rescaling). -/
def solve (S : OdeSolver) (func : DerivFun) (m : ModelState) (tf_days : ℚ)
    (numpoints : ℕ) : Option ModelState := do
  let ps ← m.p
  let w0 ← m.w0
  let pop ← m.pop
  let tspan := linspace 0 tf_days numpoints
  let sol0 := call_solver S func ps w0 tspan
  let sol := sol0.map (fun row =>
    match row with
    | [] => []
    | t :: rest => t :: rest.map (fun x => x * pop))
  pure { m with sol := some sol }

/-- The time column of a solution matrix (first entry of each row). -/
def firstCol (rows : List (List ℚ)) : List ℚ :=
  rows.filterMap (fun r => r.head?)

/-- The spec-side reading of "the evenly spaced sequence of `n` time values
from `a` to `b` inclusive": `n` values, starting at `a`, ending at `b`, with
a constant step between consecutive values. -/
def isEvenlySpacedIncl (ts : List ℚ) (a b : ℚ) (n : ℕ) : Prop :=
  ts.length = n ∧ ts.head? = some a ∧ ts.getLast? = some b ∧
    ∃ step : ℚ, ∀ i : ℕ, i + 1 < n → ts[i + 1]? = (ts[i]?).map (fun x => x + step)

/-- `np.array(xs)[mask]` for a boolean mask: the entries at the positions
where the mask is true, in order. -/
def maskSelect : List ℚ → List Bool → List ℚ
  | [], _ => []
  | _, [] => []
  | x :: xs, b :: bs => if b then x :: maskSelect xs bs else maskSelect xs bs

/-- `xs[mask] = vals` for a boolean mask: the entries at the true positions
are replaced, in order, by the entries of `vals`; numpy requires `vals` to
hold exactly one value per true mask position, which the theorems assume. -/
def maskAssign : List ℚ → List Bool → List ℚ → List ℚ
  | [], _, _ => []
  | xs, [], _ => xs
  | x :: xs, b :: bs, vals =>
    if b then
      match vals with
      | v :: vs => v :: maskAssign xs bs vs
      | [] => x :: maskAssign xs bs []
    else x :: maskAssign xs bs vals

/-- The default fit selector built when `fit_index is None`: only the first
parameter is selected. -/
def defaultMask (n : ℕ) : List Bool :=
  (List.range n).map (fun i => decide (i = 0))

/-- The number of selected entries of a mask. -/
def countTrue (mask : List Bool) : ℕ :=
  (mask.filter (fun b => b)).length

/-- The external optimizer (`scipy.optimize.curve_fit`), abstracted by its
observable interaction with the objective function: the sequence of trial
values (for the selected parameter subset) at which it evaluates the
objective, and its final result — `some (par_opt, pcov)` on convergence,
`none` when it raises. -/
structure Optimizer where
  trials : List (List ℚ)
  result : Option (List ℚ × List (List ℚ))

/-- The state mutation performed by the trial evaluations: each call of
`function_handle` rebuilds the full parameter vector from the current
`self.p` by overwriting the selected entries with the trial values and
stores it back into `self.p` before integrating. -/
def runTrials (ps : List ℚ) (mask : List Bool) : List (List ℚ) → List ℚ
  | [] => ps
  | tr :: rest => runTrials (maskAssign ps mask tr) mask rest

/-- `Model.fit(self, t_obs, n_i_obs, population, fit_index)`.  The observed
data and population only influence the (abstracted) optimizer, so they do not
appear; `opt` stands for the optimizer's behavior on this objective.  The
trial evaluations mutate `self.p`; on convergence the selected entries of the
(already mutated) `self.p` are overwritten with the optimized values
(`self.p[fit_index] = par_opt`) and `self.pcov` is stored; on optimizer
failure the exception propagates, leaving the last trial's mutation in
place. -/
def fit (opt : Optimizer) (m : ModelState) (fit_index : Option (List Bool)) :
    Option PyErr × ModelState :=
  match m.p with
  | none => (some .typeError, m)
  | some ps =>
    let mask := match fit_index with
      | none => defaultMask ps.length
      | some idx => idx
    let pDuring := runTrials ps mask opt.trials
    match opt.result with
    | none => (some .fitError, { m with p := some pDuring })
    | some (par_opt, pcov) =>
      let mDone := { m with
        p := some (maskAssign pDuring mask par_opt)
        pcov := some pcov }
      (none, mDone)

/-! ### Lemmas about the parameter validation loop -/

lemma assertAllPositive_eq_none_iff (xs : List PyVal) :
    assertAllPositive xs = none ↔ ∀ x ∈ xs, ∃ q : ℚ, x = .num q ∧ 0 < q := by
  induction xs with
  | nil => simp [assertAllPositive]
  | cons x xs ih =>
    cases x with
    | num q =>
      by_cases hq : 0 < q
      · simp [assertAllPositive, pyGtZero, hq, ih]
      · simp [assertAllPositive, pyGtZero, hq]
    | str s => simp [assertAllPositive, pyGtZero]
    | list es => simp [assertAllPositive, pyGtZero]

lemma assertAllPositive_map_num (qs : List ℚ) (hpos : ∀ q ∈ qs, 0 < q) :
    assertAllPositive (qs.map .num) = none := by
  rw [assertAllPositive_eq_none_iff]
  intro x hx
  simp only [List.mem_map] at hx
  obtain ⟨q, hq, rfl⟩ := hx
  exact ⟨q, rfl, hpos q hq⟩

lemma pyNums_map_num (qs : List ℚ) : pyNums (.list (qs.map .num)) = qs := by
  induction qs with
  | nil => rfl
  | cons q qs ih => simpa [pyNums] using ih

/-- The success path of `set_params`, shared by several theorems below. -/
lemma set_params_success_eq (np ni : ℕ) (m : ModelState) (qs ic : List ℚ)
    (hpos : ∀ q ∈ qs, 0 < q) (hlp : qs.length = np) (hlic : ic.length = ni) :
    set_params np ni m (.list (qs.map .num)) ic =
      (none, { m with
        p := some qs
        pop := some ic.sum
        w0 := some (ic.map (fun x => x / ic.sum)) }) := by
  simp [set_params, pyIter, pyLen, assertAllPositive_map_num qs hpos,
    pyNums_map_num, hlp, hlic]

lemma sum_map_div (l : List ℚ) (s : ℚ) :
    (l.map (fun x => x / s)).sum = l.sum / s := by
  induction l with
  | nil => simp
  | cons x xs ih => simp [ih, add_div]

/-! ### Claims about `set_params` -/

/-- C1: for every parameter sequence containing a non-positive element,
`set_params` raises `InvalidParameterError`; the check runs before any
mutation, so the entire previously stored state (the returned `ModelState`,
with its parameters, population, normalized initial conditions, solution and
covariance fields) is exactly the input state `m`. -/
theorem set_params_nonpositive_rejected (np ni : ℕ) (m : ModelState)
    (xs : List PyVal) (ic : List ℚ) (q : ℚ) (hmem : PyVal.num q ∈ xs)
    (hq : q ≤ 0) :
    set_params np ni m (.list xs) ic = (some .invalidParameter, m) := by
  have hbad : assertAllPositive xs ≠ none := by
    intro hnone
    rw [assertAllPositive_eq_none_iff] at hnone
    obtain ⟨r, hr, hrpos⟩ := hnone _ hmem
    injection hr with hqr
    rw [hqr] at hq
    linarith
  obtain ⟨e, he⟩ := Option.ne_none_iff_exists'.mp hbad
  simp [set_params, pyIter, he]

/-- Witness for C1, on the spec's example scenario: parameters
`[0.3, 0.1, 0, 0]` (third entry zero) are rejected with
`InvalidParameterError` and the fresh state is untouched. -/
theorem set_params_nonpositive_rejected_witness :
    set_params 4 4 ModelState.init
      (.list [.num (3/10), .num (1/10), .num 0, .num 0]) [1, 2, 3, 4] =
      (some .invalidParameter, ModelState.init) :=
  set_params_nonpositive_rejected 4 4 ModelState.init _ _ 0
    (List.mem_cons_of_mem _ (List.mem_cons_of_mem _ (List.mem_cons_self _ _)))
    le_rfl

/-- C2: for every parameter sequence of strictly positive numbers of length
`NUM_PARAMS` and every initial-condition sequence of length `NUM_IC`,
`set_params` succeeds (raises nothing), stores the parameters verbatim,
stores the population as the sum of the initial conditions, stores the
normalized initial conditions as the elementwise division of the initial
conditions by the population, and returns the mutated instance itself. -/
theorem set_params_success_spec (np ni : ℕ) (m : ModelState) (qs ic : List ℚ)
    (hpos : ∀ q ∈ qs, 0 < q) (hlp : qs.length = np) (hlic : ic.length = ni) :
    set_params np ni m (.list (qs.map .num)) ic =
      (none, { m with
        p := some qs
        pop := some ic.sum
        w0 := some (ic.map (fun x => x / ic.sum)) }) :=
  set_params_success_eq np ni m qs ic hpos hlp hlic

/-- Witness for C2, on the spec's two-compartment-style scenario scaled to
the base class counts: positive parameters and initial conditions
`[990, 10, 0, 0]` give population 1000 and normalized conditions
`[0.99, 0.01, 0, 0]`. -/
theorem set_params_success_spec_witness :
    set_params 4 4 ModelState.init
      (.list (([1/2, 1/5, 1, 1] : List ℚ).map .num)) [990, 10, 0, 0] =
      (none, { ModelState.init with
        p := some [1/2, 1/5, 1, 1]
        pop := some 1000
        w0 := some [99/100, 1/100, 0, 0] }) := by
  rw [set_params_success_spec 4 4 ModelState.init [1/2, 1/5, 1, 1]
    [990, 10, 0, 0] (by intro q hq; fin_cases hq <;> norm_num) rfl rfl]
  norm_num

/-- C4 counterexample: the claim says every length-mismatched call fails with
`InvalidNumberOfParametersError`, but the positivity check runs first, so the
length-3 vector `[0, 0, 0]` is rejected with `InvalidParameterError`
instead. -/
theorem set_params_length_mismatch_ce :
    set_params 4 4 ModelState.init (.list [.num 0, .num 0, .num 0])
      [1, 1, 1, 1] = (some .invalidParameter, ModelState.init) ∧
    PyErr.invalidParameter ≠ PyErr.invalidNumberOfParameters :=
  ⟨rfl, by decide⟩

/-- C4 as amended: provided every element of the parameter sequence is a
strictly positive number (so the positivity check passes), a length mismatch
against the declared `NUM_PARAMS`/`NUM_IC` raises
`InvalidNumberOfParametersError` and leaves the state unchanged. -/
theorem set_params_length_mismatch_amended (np ni : ℕ) (m : ModelState)
    (qs ic : List ℚ) (hpos : ∀ q ∈ qs, 0 < q)
    (hlen : qs.length ≠ np ∨ ic.length ≠ ni) :
    set_params np ni m (.list (qs.map .num)) ic =
      (some .invalidNumberOfParameters, m) := by
  simp only [set_params, pyIter, assertAllPositive_map_num qs hpos, pyLen,
    List.length_map]
  rw [if_pos hlen]

/-- Witness for the amended C4: three positive parameters against the
declared count of four. -/
theorem set_params_length_mismatch_amended_witness :
    set_params 4 4 ModelState.init (.list [.num 1, .num 1, .num 1])
      [1, 1, 1, 1] = (some .invalidNumberOfParameters, ModelState.init) :=
  set_params_length_mismatch_amended 4 4 ModelState.init [1, 1, 1]
    [1, 1, 1, 1] (by decide) (Or.inl (by decide))

/-- C6 counterexample: `set_params` accepts the all-zero initial-condition
vector (only parameters are validated), and then the stored population is
`0`, which is not strictly positive as the claim demands. -/
theorem set_params_population_zero_ce :
    (set_params 4 4 ModelState.init
      (.list (([1, 1, 1, 1] : List ℚ).map .num)) [0, 0, 0, 0]).1 = none ∧
    (set_params 4 4 ModelState.init
      (.list (([1, 1, 1, 1] : List ℚ).map .num)) [0, 0, 0, 0]).2.pop =
      some 0 ∧
    ¬ (0 : ℚ) < 0 := by
  rw [set_params_success_eq 4 4 ModelState.init [1, 1, 1, 1] [0, 0, 0, 0]
    (by intro q hq; fin_cases hq <;> norm_num) rfl rfl]
  refine ⟨rfl, ?_, by norm_num⟩
  norm_num

/-- C6 as amended: after a successful `set_params` call whose initial
conditions are non-negative with a strictly positive sum, the stored
population is strictly positive and every component of the stored normalized
initial conditions lies in `[0, 1]`, the components summing to `1`. -/
theorem set_params_normalization_amended (np ni : ℕ) (m : ModelState)
    (qs ic : List ℚ) (hpos : ∀ q ∈ qs, 0 < q) (hlp : qs.length = np)
    (hlic : ic.length = ni) (hnn : ∀ x ∈ ic, 0 ≤ x) (hsum : 0 < ic.sum) :
    (set_params np ni m (.list (qs.map .num)) ic).1 = none ∧
    ∃ pop ws, (set_params np ni m (.list (qs.map .num)) ic).2.pop = some pop ∧
      (set_params np ni m (.list (qs.map .num)) ic).2.w0 = some ws ∧
      0 < pop ∧ (∀ w ∈ ws, 0 ≤ w ∧ w ≤ 1) ∧ ws.sum = 1 := by
  rw [set_params_success_eq np ni m qs ic hpos hlp hlic]
  refine ⟨rfl, ic.sum, ic.map (fun x => x / ic.sum), rfl, rfl, hsum, ?_, ?_⟩
  · intro w hw
    simp only [List.mem_map] at hw
    obtain ⟨x, hx, rfl⟩ := hw
    refine ⟨div_nonneg (hnn x hx) hsum.le, ?_⟩
    rw [div_le_one hsum]
    exact List.single_le_sum hnn x hx
  · rw [sum_map_div]
    exact div_self hsum.ne'

/-- Witness for the amended C6: initial conditions `[990, 10, 0, 0]`. -/
theorem set_params_normalization_amended_witness :
    (set_params 4 4 ModelState.init
      (.list (([1, 1, 1, 1] : List ℚ).map .num)) [990, 10, 0, 0]).1 = none ∧
    ∃ pop ws, (set_params 4 4 ModelState.init
        (.list (([1, 1, 1, 1] : List ℚ).map .num)) [990, 10, 0, 0]).2.pop =
        some pop ∧
      (set_params 4 4 ModelState.init
        (.list (([1, 1, 1, 1] : List ℚ).map .num)) [990, 10, 0, 0]).2.w0 =
        some ws ∧
      0 < pop ∧ (∀ w ∈ ws, 0 ≤ w ∧ w ≤ 1) ∧ ws.sum = 1 :=
  set_params_normalization_amended 4 4 ModelState.init [1, 1, 1, 1]
    [990, 10, 0, 0] (by intro q hq; fin_cases hq <;> norm_num) rfl rfl
    (by intro x hx; fin_cases hx <;> norm_num) (by norm_num)

/-- C9: after any successful `set_params` (on a variant declaring at least
two parameters), the `r0` property is exactly the first stored parameter
divided by the second. -/
theorem r0_after_set_params (np ni : ℕ) (m : ModelState) (qs ic : List ℚ)
    (hpos : ∀ q ∈ qs, 0 < q) (hlp : qs.length = np) (hlic : ic.length = ni)
    (h2 : 2 ≤ np) :
    r0 (set_params np ni m (.list (qs.map .num)) ic).2 =
      some (qs[0]! / qs[1]!) := by
  rw [set_params_success_eq np ni m qs ic hpos hlp hlic]
  have h0 : 0 < qs.length := by omega
  have h1 : 1 < qs.length := by omega
  simp [r0, List.getElem?_eq_getElem h0, List.getElem?_eq_getElem h1,
    getElem!_pos qs 0 h0, getElem!_pos qs 1 h1]

/-- Witness for C9: parameters `[3, 1, 2, 4]` give `r0 = 3`. -/
theorem r0_after_set_params_witness :
    r0 (set_params 4 4 ModelState.init
      (.list (([3, 1, 2, 4] : List ℚ).map .num)) [1, 1, 1, 1]).2 =
      some (([3, 1, 2, 4] : List ℚ)[0]! / ([3, 1, 2, 4] : List ℚ)[1]!) :=
  r0_after_set_params 4 4 ModelState.init [3, 1, 2, 4] [1, 1, 1, 1]
    (by intro q hq; fin_cases hq <;> norm_num) rfl rfl (by norm_num)

/-- C10: whenever iterating over the parameter argument raises (a
non-iterable value) or comparing one of its elements with zero raises (an
element that is not a number), the bare `except` catches the exception and
`set_params` raises `InvalidParameterError` instead of propagating the
underlying `TypeError`, leaving the state unchanged. -/
theorem set_params_dynamic_failure_catchall (np ni : ℕ) (m : ModelState)
    (p : PyVal) (ic : List ℚ)
    (h : (∃ e, pyIter p = .error e) ∨
      ∃ xs, pyIter p = .ok xs ∧ ∃ x ∈ xs, ∃ e, pyGtZero x = .error e) :
    set_params np ni m p ic = (some .invalidParameter, m) := by
  rcases h with ⟨e, he⟩ | ⟨xs, hxs, x, hx, e, he⟩
  · simp [set_params, he]
  · have hbad : assertAllPositive xs ≠ none := by
      intro hall
      rw [assertAllPositive_eq_none_iff] at hall
      obtain ⟨r, hr, _⟩ := hall _ hx
      rw [hr] at he
      simp [pyGtZero] at he
    obtain ⟨e2, he2⟩ := Option.ne_none_iff_exists'.mp hbad
    simp [set_params, hxs, he2]

/-- Witness for C10: a bare number is not iterable, so `for param in p`
raises `TypeError`, which is converted into `InvalidParameterError`. -/
theorem set_params_dynamic_failure_catchall_witness :
    set_params 4 4 ModelState.init (.num 5) [1, 2, 3, 4] =
      (some .invalidParameter, ModelState.init) :=
  set_params_dynamic_failure_catchall 4 4 ModelState.init (.num 5) [1, 2, 3, 4]
    (Or.inl ⟨.typeError, rfl⟩)

/-! ### Lemmas about `linspace` and `solve` -/

lemma linspace_length (a b : ℚ) (n : ℕ) : (linspace a b n).length = n := by
  rw [linspace, List.length_map, List.length_range]

lemma linspace_getElem? (a b : ℚ) (n i : ℕ) (hi : i < n) :
    (linspace a b n)[i]? = some (a + (b - a) * i / ((n : ℚ) - 1)) := by
  rw [linspace, List.getElem?_map, List.getElem?_range hi, Option.map_some']

lemma linspace_head? (a b : ℚ) (n : ℕ) (hn : 0 < n) :
    (linspace a b n).head? = some a := by
  rw [List.head?_eq_getElem?, linspace_getElem? a b n 0 hn]
  norm_num

lemma linspace_getLast? (a b : ℚ) (n : ℕ) (hn : 2 ≤ n) :
    (linspace a b n).getLast? = some b := by
  have hne : ((n : ℚ) - 1) ≠ 0 := by
    have : (2 : ℚ) ≤ (n : ℚ) := by exact_mod_cast hn
    intro h
    nlinarith
  rw [List.getLast?_eq_getElem?, linspace_length,
    linspace_getElem? a b n (n - 1) (by omega)]
  have hcast : ((n - 1 : ℕ) : ℚ) = (n : ℚ) - 1 := by
    have : 1 ≤ n := by omega
    push_cast [this]
    ring
  rw [hcast, mul_div_assoc, div_self hne, mul_one]
  norm_num

lemma linspace_evenlySpaced (a b : ℚ) (n : ℕ) (hn : 2 ≤ n) :
    isEvenlySpacedIncl (linspace a b n) a b n := by
  refine ⟨linspace_length a b n, linspace_head? a b n (by omega),
    linspace_getLast? a b n hn, (b - a) / ((n : ℚ) - 1), ?_⟩
  intro i hi
  rw [linspace_getElem? a b n (i + 1) hi, linspace_getElem? a b n i (by omega)]
  simp only [Option.map_some']
  congr 1
  push_cast
  ring

lemma firstCol_zipWith_cons (g : ℚ → List ℚ → List ℚ) :
    ∀ (ts : List ℚ) (rows : List (List ℚ)), rows.length = ts.length →
      firstCol (List.zipWith (fun t r => t :: g t r) ts rows) = ts := by
  intro ts
  induction ts with
  | nil => intro rows h; rfl
  | cons t ts ih =>
    intro rows h
    cases rows with
    | nil => simp at h
    | cons r rows =>
      have h2 : rows.length = ts.length := by simpa using h
      have hstep : firstCol (List.zipWith (fun u v => u :: g u v) (t :: ts)
          (r :: rows)) =
          t :: firstCol (List.zipWith (fun u v => u :: g u v) ts rows) := rfl
      rw [hstep, ih rows h2]

/-! ### Claims about `solve` -/

/-- The integrator instance used for the concrete `solve` scenarios below:
it returns the initial state unchanged at every requested time point (a
legitimate inhabitant of the integrator abstraction, which only fixes the
row count). -/
def constSolver : OdeSolver where
  run := fun _ w0 t _ => t.map (fun _ => w0)
  run_length := fun _ w0 t _ => by simp

/-- A concrete derivative function for the scenarios below. -/
def zeroDeriv : DerivFun := fun w _ _ => w.map (fun _ => 0)

/-- A model state with parameters and initial conditions already set, used
by the concrete `solve` scenarios below. -/
def mSolve : ModelState :=
  { ModelState.init with p := some [1], pop := some 1, w0 := some [1] }

/-- C3 counterexample: with `numpoints = 1` the time span built by
`np.linspace(0, 7, 1)` is `[0]`, so the solution has a single row whose time
column is `[0]` — not an evenly spaced sequence from 0 to the horizon 7
inclusive, contradicting the claim read over every point count. -/
theorem solve_single_point_ce :
    solve constSolver zeroDeriv mSolve 7 1 =
      some { mSolve with sol := some [[0, 1]] } ∧
    firstCol [[0, 1]] = [0] ∧
    ¬ isEvenlySpacedIncl [(0 : ℚ)] 0 7 1 := by
  have hts : linspace 0 7 1 = [0] := by
    have hr : List.range 1 = [0] := rfl
    rw [linspace, hr, List.map_cons, List.map_nil]
    norm_num
  refine ⟨?_, rfl, ?_⟩
  · have hp : mSolve.p = some [1] := rfl
    have hw : mSolve.w0 = some [1] := rfl
    have hpop : mSolve.pop = some 1 := rfl
    simp [solve, hp, hw, hpop, hts, call_solver, constSolver, zeroDeriv]
  · rintro ⟨-, -, hlast, -⟩
    rw [show ([(0 : ℚ)].getLast? ) = some 0 from rfl] at hlast
    rw [Option.some_inj] at hlast
    exact absurd hlast (by norm_num)

/-- C3 as amended: for every model whose parameters, population and
normalized initial conditions are set, every horizon and every point count
`numpoints ≥ 2`, `solve` stores (overwriting any prior solution, all other
fields untouched) a solution with exactly `numpoints` rows, whose time
column is the evenly spaced sequence of `numpoints` values from 0 to the
horizon inclusive, and whose remaining columns are the integrator's output
states on that time span, each entry multiplied by the stored population;
the mutated instance is returned. -/
theorem solve_spec_amended (S : OdeSolver) (func : DerivFun) (m : ModelState)
    (ps w0v : List ℚ) (pop tf : ℚ) (n : ℕ) (hp : m.p = some ps)
    (hw : m.w0 = some w0v) (hpop : m.pop = some pop) (hn : 2 ≤ n) :
    ∃ sol, solve S func m tf n = some { m with sol := some sol } ∧
      sol = List.zipWith (fun t row => t :: row.map (fun x => x * pop))
        (linspace 0 tf n) (S.run func w0v (linspace 0 tf n) ps) ∧
      sol.length = n ∧
      firstCol sol = linspace 0 tf n ∧
      isEvenlySpacedIncl (firstCol sol) 0 tf n := by
  have hrows := S.run_length func w0v (linspace 0 tf n) ps
  have hmap : (call_solver S func ps w0v (linspace 0 tf n)).map (fun row =>
      match row with
      | [] => ([] : List ℚ)
      | t :: rest => t :: rest.map (fun x => x * pop)) =
      List.zipWith (fun t row => t :: row.map (fun x => x * pop))
        (linspace 0 tf n) (S.run func w0v (linspace 0 tf n) ps) := by
    rw [call_solver, List.map_zipWith]
  refine ⟨_, ?_, hmap, ?_, ?_, ?_⟩
  · simp [solve, hp, hw, hpop]
  · rw [hmap, List.length_zipWith, hrows, linspace_length, min_self]
  · rw [hmap, firstCol_zipWith_cons (fun t row => row.map (fun x => x * pop))
      _ _ (by rw [hrows])]
  · rw [hmap, firstCol_zipWith_cons (fun t row => row.map (fun x => x * pop))
      _ _ (by rw [hrows])]
    exact linspace_evenlySpaced 0 tf n hn

/-- Witness for the amended C3: three points over a seven-day horizon. -/
theorem solve_spec_amended_witness :
    ∃ sol, solve constSolver zeroDeriv mSolve 7 3 =
        some { mSolve with sol := some sol } ∧
      sol = List.zipWith (fun t row => t :: row.map (fun x => x * 1))
        (linspace 0 7 3) (constSolver.run zeroDeriv [1] (linspace 0 7 3) [1]) ∧
      sol.length = 3 ∧
      firstCol sol = linspace 0 7 3 ∧
      isEvenlySpacedIncl (firstCol sol) 0 7 3 :=
  solve_spec_amended constSolver zeroDeriv mSolve [1] [1] 1 7 3 rfl rfl rfl
    (by norm_num)

/-! ### Lemmas about masked assignment and the fit trial loop -/

lemma countTrue_cons_true (bs : List Bool) :
    countTrue (true :: bs) = countTrue bs + 1 := by
  simp [countTrue]

lemma countTrue_cons_false (bs : List Bool) :
    countTrue (false :: bs) = countTrue bs := by
  simp [countTrue]

lemma maskAssign_length : ∀ (xs : List ℚ) (bs : List Bool) (vs : List ℚ),
    (maskAssign xs bs vs).length = xs.length
  | [], _, _ => by simp [maskAssign]
  | _ :: _, [], _ => by simp [maskAssign]
  | x :: xs, b :: bs, vs => by
    cases b with
    | true =>
      cases vs with
      | nil => simp [maskAssign, maskAssign_length xs bs []]
      | cons v vs => simp [maskAssign, maskAssign_length xs bs vs]
    | false => simp [maskAssign, maskAssign_length xs bs vs]

lemma maskAssign_getElem?_of_false :
    ∀ (xs : List ℚ) (bs : List Bool) (vs : List ℚ) (i : ℕ),
      bs[i]? = some false → (maskAssign xs bs vs)[i]? = xs[i]?
  | [], _, _, _ => fun _ => by simp [maskAssign]
  | _ :: _, [], _, i => fun h => by simp at h
  | x :: xs, b :: bs, vs, 0 => fun h => by
    have hb : b = false := by simpa using h
    subst hb
    simp [maskAssign]
  | x :: xs, b :: bs, vs, i + 1 => fun h => by
    have hb : bs[i]? = some false := by simpa using h
    cases b with
    | true =>
      cases vs with
      | nil =>
        show (x :: maskAssign xs bs [])[i + 1]? = (x :: xs)[i + 1]?
        rw [List.getElem?_cons_succ, List.getElem?_cons_succ]
        exact maskAssign_getElem?_of_false xs bs [] i hb
      | cons v vs =>
        show (v :: maskAssign xs bs vs)[i + 1]? = (x :: xs)[i + 1]?
        rw [List.getElem?_cons_succ, List.getElem?_cons_succ]
        exact maskAssign_getElem?_of_false xs bs vs i hb
    | false =>
      show (x :: maskAssign xs bs vs)[i + 1]? = (x :: xs)[i + 1]?
      rw [List.getElem?_cons_succ, List.getElem?_cons_succ]
      exact maskAssign_getElem?_of_false xs bs vs i hb

lemma maskSelect_maskAssign : ∀ (xs : List ℚ) (bs : List Bool) (vs : List ℚ),
    bs.length = xs.length → vs.length = countTrue bs →
    maskSelect (maskAssign xs bs vs) bs = vs
  | xs, [], vs => fun _ hv => by
    have : vs = [] := List.length_eq_zero.mp (by simpa [countTrue] using hv)
    subst this
    cases xs <;> simp [maskAssign, maskSelect]
  | [], b :: bs, vs => fun hb _ => by simp at hb
  | x :: xs, b :: bs, vs => fun hb hv => by
    have hb2 : bs.length = xs.length := by simpa using hb
    cases b with
    | true =>
      rw [countTrue_cons_true] at hv
      cases vs with
      | nil => simp at hv
      | cons v vs =>
        have hv2 : vs.length = countTrue bs := by simpa using hv
        show v :: maskSelect (maskAssign xs bs vs) bs = v :: vs
        rw [maskSelect_maskAssign xs bs vs hb2 hv2]
    | false =>
      rw [countTrue_cons_false] at hv
      show maskSelect (maskAssign xs bs vs) bs = vs
      rw [maskSelect_maskAssign xs bs vs hb2 hv]

lemma maskAssign_maskAssign : ∀ (xs : List ℚ) (bs : List Bool) (us vs : List ℚ),
    us.length = countTrue bs → vs.length = countTrue bs →
    maskAssign (maskAssign xs bs us) bs vs = maskAssign xs bs vs
  | [], bs, us, vs => fun _ _ => by simp [maskAssign]
  | x :: xs, [], us, vs => fun _ _ => by simp [maskAssign]
  | x :: xs, b :: bs, us, vs => fun hu hv => by
    cases b with
    | true =>
      rw [countTrue_cons_true] at hu hv
      cases us with
      | nil => simp at hu
      | cons u us =>
        cases vs with
        | nil => simp at hv
        | cons v vs =>
          have hu2 : us.length = countTrue bs := by simpa using hu
          have hv2 : vs.length = countTrue bs := by simpa using hv
          show v :: maskAssign (maskAssign xs bs us) bs vs =
            v :: maskAssign xs bs vs
          rw [maskAssign_maskAssign xs bs us vs hu2 hv2]
    | false =>
      rw [countTrue_cons_false] at hu hv
      show x :: maskAssign (maskAssign xs bs us) bs vs =
        x :: maskAssign xs bs vs
      rw [maskAssign_maskAssign xs bs us vs hu hv]

lemma runTrials_length (bs : List Bool) :
    ∀ (trs : List (List ℚ)) (ps : List ℚ),
      (runTrials ps bs trs).length = ps.length
  | [], ps => rfl
  | tr :: rest, ps => by
    rw [runTrials, runTrials_length bs rest (maskAssign ps bs tr),
      maskAssign_length]

lemma runTrials_getElem?_of_false (bs : List Bool) (i : ℕ)
    (hb : bs[i]? = some false) :
    ∀ (trs : List (List ℚ)) (ps : List ℚ),
      (runTrials ps bs trs)[i]? = ps[i]?
  | [], ps => rfl
  | tr :: rest, ps => by
    rw [runTrials, runTrials_getElem?_of_false bs i hb rest (maskAssign ps bs tr),
      maskAssign_getElem?_of_false ps bs tr i hb]

lemma runTrials_of_getLast? (bs : List Bool) :
    ∀ (trs : List (List ℚ)) (ps tr : List ℚ),
      trs.getLast? = some tr → (∀ t ∈ trs, t.length = countTrue bs) →
      runTrials ps bs trs = maskAssign ps bs tr
  | [], ps, tr => fun hlast _ => by simp at hlast
  | [tr0], ps, tr => fun hlast _ => by
    have : tr0 = tr := by simpa using hlast
    subst this
    rfl
  | tr0 :: tr1 :: rest, ps, tr => fun hlast hall => by
    have hlast2 : (tr1 :: rest).getLast? = some tr := by
      rw [← hlast, List.getLast?_cons_cons]
    have hall2 : ∀ t ∈ tr1 :: rest, t.length = countTrue bs := by
      intro t ht
      exact hall t (List.mem_cons_of_mem _ ht)
    have htr : tr.length = countTrue bs := by
      apply hall2
      exact List.mem_of_mem_getLast? hlast2
    rw [runTrials, runTrials_of_getLast? bs (tr1 :: rest)
      (maskAssign ps bs tr0) tr hlast2 hall2]
    exact maskAssign_maskAssign ps bs tr0 tr
      (hall tr0 (List.mem_cons_self _ _)) htr

/-! ### Claims about `fit` -/

/-- C5: for every fit call whose optimizer converges, exactly the parameter
entries selected by the fit selector are overwritten with the optimizer's
result, every unselected entry keeps its pre-call value, the covariance
matrix is stored, and the (mutated) instance is returned with all other
fields untouched — regardless of which trial values the optimizer tried
along the way. -/
theorem fit_success_frame (opt : Optimizer) (m : ModelState) (ps : List ℚ)
    (mask : List Bool) (par_opt : List ℚ) (pcov : List (List ℚ))
    (hp : m.p = some ps) (hmask : mask.length = ps.length)
    (hres : opt.result = some (par_opt, pcov))
    (hlen : par_opt.length = countTrue mask) :
    ∃ ps2, fit opt m (some mask) = (none, { m with
        p := some ps2
        pcov := some pcov }) ∧
      ps2.length = ps.length ∧
      maskSelect ps2 mask = par_opt ∧
      (∀ i : ℕ, mask[i]? = some false → ps2[i]? = ps[i]?) := by
  refine ⟨maskAssign (runTrials ps mask opt.trials) mask par_opt, ?_, ?_, ?_, ?_⟩
  · simp [fit, hp, hres]
  · rw [maskAssign_length, runTrials_length]
  · exact maskSelect_maskAssign _ mask par_opt
      (by rw [runTrials_length, hmask]) hlen
  · intro i hb
    rw [maskAssign_getElem?_of_false _ mask par_opt i hb,
      runTrials_getElem?_of_false mask i hb]

/-- Witness for C5: fitting the first parameter of `[1, 2, 3, 4]` with two
trials and converged value `[7]` yields `[7, 2, 3, 4]` with the covariance
stored. -/
theorem fit_success_frame_witness :
    ∃ ps2, fit ⟨[[5], [6]], some ([7], [[2]])⟩
        { ModelState.init with p := some [1, 2, 3, 4] }
        (some [true, false, false, false]) =
        (none, { { ModelState.init with p := some [1, 2, 3, 4] } with
          p := some ps2
          pcov := some [[2]] }) ∧
      ps2.length = ([1, 2, 3, 4] : List ℚ).length ∧
      maskSelect ps2 [true, false, false, false] = [7] ∧
      (∀ i : ℕ, [true, false, false, false][i]? = some false →
        ps2[i]? = ([1, 2, 3, 4] : List ℚ)[i]?) :=
  fit_success_frame ⟨[[5], [6]], some ([7], [[2]])⟩
    { ModelState.init with p := some [1, 2, 3, 4] } [1, 2, 3, 4]
    [true, false, false, false] [7] [[2]] rfl rfl rfl rfl

/-- C7 (demonstrating the missing guard): with an all-false fit selector the
code performs no fail-fast check at all — it proceeds to call the optimizer
on an empty parameter subset, and when the optimizer returns trivially the
call completes without error as a silent no-op on the parameters, directly
contradicting the required fail-fast behavior. -/
theorem fit_all_false_silent_noop :
    fit ⟨[], some ([], [])⟩ { ModelState.init with p := some [1, 2, 3, 4] }
      (some [false, false, false, false]) =
      (none, { ModelState.init with
        p := some [1, 2, 3, 4]
        pcov := some [] }) :=
  rfl

/-- C8: every trial evaluation writes the trial values into the selected
entries of the shared parameter store, so a fit call that fails after at
least one trial leaves the parameter vector equal to the original one with
the selected entries overwritten by the last attempted trial values (the
selected entries then read back exactly as that last trial). -/
theorem fit_failure_last_trial (opt : Optimizer) (m : ModelState)
    (ps : List ℚ) (mask : List Bool) (tr : List ℚ) (hp : m.p = some ps)
    (hmask : mask.length = ps.length) (hres : opt.result = none)
    (hlast : opt.trials.getLast? = some tr)
    (hall : ∀ t ∈ opt.trials, t.length = countTrue mask) :
    fit opt m (some mask) =
      (some .fitError, { m with p := some (maskAssign ps mask tr) }) ∧
    maskSelect (maskAssign ps mask tr) mask = tr := by
  constructor
  · simp [fit, hp, hres, runTrials_of_getLast? mask opt.trials ps tr hlast hall]
  · exact maskSelect_maskAssign ps mask tr hmask
      (hall tr (List.mem_of_mem_getLast? hlast))

/-- Witness for C8: a fit of the first parameter of `[1, 2, 3, 4]` that
tries `[5]` then `[6]` and fails leaves the store at `[6, 2, 3, 4]` — the
last attempted trial value, not the pre-call value. -/
theorem fit_failure_last_trial_witness :
    fit ⟨[[5], [6]], none⟩ { ModelState.init with p := some [1, 2, 3, 4] }
      (some [true, false, false, false]) =
      (some .fitError, { { ModelState.init with p := some [1, 2, 3, 4] } with
        p := some (maskAssign [1, 2, 3, 4] [true, false, false, false] [6]) }) ∧
    maskSelect (maskAssign [1, 2, 3, 4] [true, false, false, false] [6])
      [true, false, false, false] = [6] :=
  fit_failure_last_trial ⟨[[5], [6]], none⟩
    { ModelState.init with p := some [1, 2, 3, 4] } [1, 2, 3, 4]
    [true, false, false, false] [6] rfl rfl rfl rfl
    (by intro t ht; fin_cases ht <;> rfl)

end OpenSir
